import Mathlib

/-
Shallow embedding of servo-tester.c (ATtiny84 hobby RC servo tester).

The program is a single endless loop plus one ADC conversion-complete
interrupt handler.  Machine integers are modelled as Nat.  The AVR float
arithmetic (on avr-gcc, double and float are both IEEE binary32) is
modelled exactly: every value the program computes is a nonnegative
fraction, represented by an unreduced numerator/denominator pair of
naturals, and every float operation rounds its exact rational result to
a 24-bit significand with round-to-nearest, ties-to-even - the IEEE
binary32 semantics for all the normal-range values this program ever
produces (every intermediate lies in [0, 247]: no overflow, no
subnormals, no negatives).
-/

namespace ServoTester

/- Timer1 and PWM constants from servo-tester.c lines 76-87. -/

def SERVO_PERIOD : Nat := 2499

def PWM_LOW : Nat := 123

def PWM_CENTER : Nat := 184

def PWM_HIGH : Nat := 246

def PWM_INIT : Nat := PWM_CENTER

def PWM_RANGE : Nat := PWM_HIGH - PWM_LOW

def SET_CENTER : Nat := 1

def SET_MANUAL : Nat := 0

/- Exact model of IEEE binary32 rounding (round to nearest, ties to
even) for nonnegative normal-range values, over unreduced fractions. -/

/-- A nonnegative rational as an unreduced fraction of naturals; every
constructed value keeps den positive. -/
structure Q where
  num : Nat
  den : Nat
  deriving DecidableEq

/-- Fraction multiplication. -/
def Q.mul (a b : Q) : Q := ⟨a.num * b.num, a.den * b.den⟩

/-- Fraction addition. -/
def Q.add (a b : Q) : Q := ⟨a.num * b.den + b.num * a.den, a.den * b.den⟩

/-- Floor of a nonnegative fraction (truncation toward zero). -/
def Q.floor (a : Q) : Nat := a.num / a.den

/-- Fuel-indexed base-2 floor logarithm, structurally recursive so the
kernel evaluates it by plain reduction. -/
def log2fuel : Nat → Nat → Nat
  | 0, _ => 0
  | fuel + 1, n => if n ≤ 1 then 0 else 1 + log2fuel fuel (n / 2)

/-- Floor of the base-2 logarithm of a positive natural. -/
def natLog2 (n : Nat) : Nat := log2fuel n n

/-- Ceiling of the base-2 logarithm of a positive natural. -/
def natClog2 (n : Nat) : Nat := if n ≤ 1 then 0 else natLog2 (n - 1) + 1

/-- Round the fraction n / d to the nearest integer, ties to even. -/
def rhe (n d : Nat) : Nat :=
  let fl := n / d
  let rem := n % d
  if 2 * rem < d then fl
  else if d < 2 * rem then fl + 1
  else if fl % 2 = 0 then fl else fl + 1

/-- Round a nonnegative fraction to the nearest IEEE binary32 value
(24-bit significand, round to nearest, ties to even).  With the binade
exponent e chosen so that 2^e ≤ a < 2^(e+1), the value is rounded at
granularity 2^(e-23); exact IEEE semantics for normal-range
magnitudes, which covers every value this program computes. -/
def round32 (a : Q) : Q :=
  if a.num = 0 then ⟨0, 1⟩
  else if a.den ≤ a.num then
    let e := natLog2 (a.num / a.den)
    if e ≤ 23 then
      let s := 2 ^ (23 - e)
      ⟨rhe (a.num * s) a.den, s⟩
    else
      let s := 2 ^ (e - 23)
      ⟨rhe a.num (a.den * s) * s, 1⟩
  else
    let k := natClog2 ((a.den + a.num - 1) / a.num)
    let s := 2 ^ (23 + k)
    ⟨rhe (a.num * s) a.den, s⟩

/- The Manual-mode pulse-width computation, servo-tester.c lines
197-200:
     temp = (float)analog_readout;
     temp = temp * (PWM_RANGE / 255.0);
     temp = temp + PWM_LOW;
     OCR1A = (uint8_t)temp;
Each float operation rounds to binary32; the compile-time constant
PWM_RANGE / 255.0 is itself a binary32 value on the AVR target, and the
integer PWM_LOW converts exactly to float before the addition. -/

/-- Value of the float variable temp just before the uint8_t cast. -/
def manual_pulse_q (analog : Nat) : Q :=
  let temp := round32 ⟨analog, 1⟩
  let temp := round32 (temp.mul (round32 ⟨PWM_RANGE, 255⟩))
  let temp := round32 (temp.add ⟨PWM_LOW, 1⟩)
  temp

/-- The uint8_t value stored into OCR1A by the Manual branch: the float
is truncated toward zero, then narrowed to 8 bits. -/
def manual_pulse (analog : Nat) : Nat :=
  (manual_pulse_q analog).floor % 256

/- Program state shared between the main loop and the ISR: the volatile
global analog_readout (line 98), the OCR1A compare register (the pulse
width the hardware PWM consumes), and the local prev_sw_state that main
keeps across iterations (line 173). -/

structure ProgState where
  analog_readout : Nat
  ocr1a : Nat
  prev_sw_state : Nat
  deriving DecidableEq

/-- ADCH under the left-adjusted (ADLAR) configuration of ADCSRB_INIT:
the most significant 8 of the 10 conversion bits. -/
def ADCH_of (conversion : Nat) : Nat := conversion % 1024 >>> 2

/-- ISR(ADC_vect), lines 160-163: its whole body is the single copy
analog_readout = ADCH. -/
def isrADC (st : ProgState) (conversion : Nat) : ProgState :=
  { st with analog_readout := ADCH_of conversion }

/-- The switch read of line 188: (PINA & 0b00000010) >> 1. -/
def switchRead (pina : Nat) : Nat := (pina &&& 2) >>> 1

/-- One iteration of the endless while loop, lines 186-204: read the
switch bit, write OCR1A on a rising edge into Center or on every Manual
iteration, then record the switch state for the next iteration. -/
def loopStep (st : ProgState) (pina : Nat) : ProgState :=
  let center_manual_sw := switchRead pina
  if center_manual_sw ≠ st.prev_sw_state ∧ center_manual_sw = SET_CENTER then
    { st with ocr1a := PWM_CENTER, prev_sw_state := center_manual_sw }
  else if center_manual_sw = SET_MANUAL then
    { st with ocr1a := manual_pulse st.analog_readout,
              prev_sw_state := center_manual_sw }
  else
    { st with prev_sw_state := center_manual_sw }

/-- An asynchronous step: one main-loop iteration (with the PINA byte it
samples) or one ADC conversion-complete interrupt (with the 10-bit
conversion result).  Interleavings of the loop with the ISR are
arbitrary lists of these events. -/
inductive Ev where
  | loop (pina : Nat)
  | adc (conversion : Nat)
  deriving DecidableEq

/-- Dispatch one event against the program state. -/
def stepEv (st : ProgState) (e : Ev) : ProgState :=
  match e with
  | .loop pina => loopStep st pina
  | .adc conversion => isrADC st conversion

/-- Run a sequence of loop iterations and interrupts. -/
def runEvents (st : ProgState) (evs : List Ev) : ProgState :=
  evs.foldl stepEv st

/-- The state at first entry to the while loop: analog_readout starts
at 0 (line 98), OCR1A was set to PWM_INIT by ioinit (line 117), and
prev_sw_state was initialized to SET_MANUAL (line 173). -/
def initState : ProgState :=
  { analog_readout := 0, ocr1a := PWM_INIT, prev_sw_state := SET_MANUAL }

/- Startup trace: the externally visible actions performed between reset
and the first loop iteration, in the order main and ioinit execute them
(lines 107-135 and 169-183). -/

def TIM1_CTRLA : Nat := 0b10000010

def TIM1_CTRLB : Nat := 0b00011011

def ADMUX_INIT : Nat := 0b00000000

def ADCSRA_INIT : Nat := 0b11101111

def ADCSRB_INIT : Nat := 0b00010000

def PA_DDR_INIT : Nat := 0b01000000

def PA_PUP_INIT : Nat := 0b00000010

def PA_INIT : Nat := 0x00

def PB_DDR_INIT : Nat := 0b00000000

def PB_PUP_INIT : Nat := 0b00000000

def PB_INIT : Nat := 0x00

/-- A hardware register write or other externally visible action on the
startup path from reset to the first loop iteration. -/
inductive Event where
  | wCLKPR (v : Nat)
  | wTCNT1 (v : Nat)
  | wOCR1A (v : Nat)
  | wICR1 (v : Nat)
  | wTCCR1A (v : Nat)
  | wTCCR1B (v : Nat)
  | wTCCR1C (v : Nat)
  | wTIMSK1 (v : Nat)
  | wADMUX (v : Nat)
  | wADCSRA (v : Nat)
  | wADCSRB (v : Nat)
  | wDDRA (v : Nat)
  | wPORTA (v : Nat)
  | wDDRB (v : Nat)
  | wPORTB (v : Nat)
  | sei
  | delay_ms (n : Nat)
  | readPINA
  deriving DecidableEq

/-- The register writes of ioinit, lines 110-134, in program order. -/
def ioinitTrace : List Event :=
  [Event.wCLKPR 0x80, Event.wCLKPR 0x00,
   Event.wTCNT1 0, Event.wOCR1A PWM_INIT, Event.wICR1 SERVO_PERIOD,
   Event.wTCCR1A TIM1_CTRLA, Event.wTCCR1B TIM1_CTRLB,
   Event.wTCCR1C 0, Event.wTIMSK1 0,
   Event.wADMUX ADMUX_INIT, Event.wADCSRA ADCSRA_INIT,
   Event.wADCSRB ADCSRB_INIT,
   Event.wDDRA PA_DDR_INIT, Event.wPORTA (PA_INIT ||| PA_PUP_INIT),
   Event.wDDRB PB_DDR_INIT, Event.wPORTB (PB_INIT ||| PB_PUP_INIT)]

/-- The actions of main before the first loop iteration, lines 176-182:
ioinit, then sei, then the 2-second settling delay.  The first switch
read (readPINA) happens only inside the loop and is absent here. -/
def startupTrace : List Event :=
  ioinitTrace ++ [Event.sei, Event.delay_ms 2000]

/-- The sequence of values written to OCR1A by a trace. -/
def ocr1aWrites (tr : List Event) : List Nat :=
  tr.filterMap fun e => match e with | .wOCR1A v => some v | _ => none

/-- The OCR1A value after executing a trace (none if never written). -/
def ocr1aAfter (tr : List Event) : Option Nat :=
  tr.foldl (fun acc e => match e with | .wOCR1A v => some v | _ => acc) none

/-- Recognizer for OCR1A writes. -/
def isOCR1AWrite : Event → Bool :=
  fun e => match e with | .wOCR1A _ => true | _ => false

/-- Loop-and-interrupt sequences that keep the switch in Center: every
loop event samples PINA with bit 1 set; interrupts are unrestricted. -/
def centerOnly : Ev → Bool
  | .loop pina => decide (switchRead pina = SET_CENTER)
  | .adc _ => true

/-- The range-and-liveness invariant maintained by the loop: OCR1A stays
inside the servo-safe compare window and the shared sample is a byte. -/
def Inv (st : ProgState) : Prop :=
  PWM_LOW ≤ st.ocr1a ∧ st.ocr1a ≤ PWM_HIGH ∧ st.analog_readout ≤ 255

/- Helper lemmas. -/

set_option maxRecDepth 4000

theorem manual_pulse_eq_floor (s : Fin 256) :
    manual_pulse s.val = PWM_LOW + s.val * PWM_RANGE / 255 := by
  revert s
  decide

theorem manual_pulse_in_range_fin (s : Fin 256) :
    PWM_LOW ≤ manual_pulse s.val ∧ manual_pulse s.val ≤ PWM_HIGH := by
  revert s
  decide

theorem manual_pulse_in_range (a : Nat) (ha : a ≤ 255) :
    PWM_LOW ≤ manual_pulse a ∧ manual_pulse a ≤ PWM_HIGH :=
  manual_pulse_in_range_fin ⟨a, by omega⟩

theorem switchRead_eq_testBit (pina : Nat) :
    switchRead pina = (pina.testBit 1).toNat := by
  unfold switchRead
  rw [show (2 : Nat) = 2 ^ 1 from rfl, Nat.and_two_pow]
  cases pina.testBit 1 <;> rfl

theorem switchRead_cases (pina : Nat) :
    switchRead pina = SET_MANUAL ∨ switchRead pina = SET_CENTER := by
  rw [switchRead_eq_testBit]
  cases pina.testBit 1
  · exact Or.inl rfl
  · exact Or.inr rfl

theorem loopStep_center_edge (st : ProgState) (pina : Nat)
    (hsw : switchRead pina = SET_CENTER)
    (hprev : st.prev_sw_state ≠ SET_CENTER) :
    (loopStep st pina).ocr1a = PWM_CENTER
    ∧ (loopStep st pina).prev_sw_state = SET_CENTER := by
  have hne : SET_CENTER ≠ st.prev_sw_state := fun h => hprev h.symm
  simp [loopStep, hsw, hne]

theorem loopStep_center_stay (st : ProgState) (pina : Nat)
    (hsw : switchRead pina = SET_CENTER)
    (hprev : st.prev_sw_state = SET_CENTER) :
    (loopStep st pina).ocr1a = st.ocr1a
    ∧ (loopStep st pina).prev_sw_state = SET_CENTER := by
  simp [loopStep, hsw, hprev, SET_CENTER, SET_MANUAL]

theorem loopStep_manual (st : ProgState) (pina : Nat)
    (hsw : switchRead pina = SET_MANUAL) :
    (loopStep st pina).ocr1a = manual_pulse st.analog_readout
    ∧ (loopStep st pina).prev_sw_state = SET_MANUAL := by
  simp [loopStep, hsw, SET_CENTER, SET_MANUAL]

theorem loopStep_prev (st : ProgState) (pina : Nat) :
    (loopStep st pina).prev_sw_state = switchRead pina := by
  simp only [loopStep]
  split_ifs <;> rfl

theorem loopStep_analog (st : ProgState) (pina : Nat) :
    (loopStep st pina).analog_readout = st.analog_readout := by
  simp only [loopStep]
  split_ifs <;> rfl

theorem ADCH_of_le (c : Nat) : ADCH_of c ≤ 255 := by
  unfold ADCH_of
  rw [Nat.shiftRight_eq_div_pow, show (2 : Nat) ^ 2 = 4 from rfl]
  have h : c % 1024 < 1024 := Nat.mod_lt c (by omega)
  omega

theorem inv_init : Inv initState := ⟨by decide, by decide, by decide⟩

theorem inv_step (st : ProgState) (e : Ev) (h : Inv st) : Inv (stepEv st e) := by
  cases e with
  | adc c => exact ⟨h.1, h.2.1, ADCH_of_le c⟩
  | loop pina =>
      have hana : (loopStep st pina).analog_readout ≤ 255 := by
        rw [loopStep_analog]; exact h.2.2
      rcases switchRead_cases pina with h0 | h1
      · have hm := loopStep_manual st pina h0
        have hb := manual_pulse_in_range st.analog_readout h.2.2
        exact ⟨by rw [show stepEv st (Ev.loop pina) = loopStep st pina from rfl, hm.1]; exact hb.1,
               by rw [show stepEv st (Ev.loop pina) = loopStep st pina from rfl, hm.1]; exact hb.2,
               hana⟩
      · by_cases hp : st.prev_sw_state = SET_CENTER
        · have hs := loopStep_center_stay st pina h1 hp
          exact ⟨by rw [show stepEv st (Ev.loop pina) = loopStep st pina from rfl, hs.1]; exact h.1,
                 by rw [show stepEv st (Ev.loop pina) = loopStep st pina from rfl, hs.1]; exact h.2.1,
                 hana⟩
        · have hs := loopStep_center_edge st pina h1 hp
          exact ⟨by rw [show stepEv st (Ev.loop pina) = loopStep st pina from rfl, hs.1]; decide,
                 by rw [show stepEv st (Ev.loop pina) = loopStep st pina from rfl, hs.1]; decide,
                 hana⟩

theorem inv_run (st : ProgState) (evs : List Ev) (h : Inv st) :
    Inv (runEvents st evs) := by
  induction evs generalizing st with
  | nil => exact h
  | cons e evs ih => exact ih (stepEv st e) (inv_step st e h)

/- The claims. -/

/-- Claim C1: on a Manual-mode loop iteration with analog sample s, the
PWM compare register receives exactly
floor(PWM_LOW + s * (PWM_HIGH - PWM_LOW) / 255) = 123 + floor(s*123/255),
with truncation; in particular sample 0 gives PWM_LOW, 128 gives
PWM_CENTER and 255 gives exactly PWM_HIGH. -/
theorem manual_iteration_writes_floor (st : ProgState) (pina : Nat) (s : Fin 256)
    (ha : st.analog_readout = s.val) (hsw : switchRead pina = SET_MANUAL) :
    (loopStep st pina).ocr1a = PWM_LOW + s.val * PWM_RANGE / 255
    ∧ manual_pulse 0 = PWM_LOW
    ∧ manual_pulse 128 = PWM_CENTER
    ∧ manual_pulse 255 = PWM_HIGH := by
  refine ⟨?_, by decide, by decide, by decide⟩
  rw [(loopStep_manual st pina hsw).1, ha]
  exact manual_pulse_eq_floor s

/-- Witness for C1 at sample 0 with the switch bit clear. -/
theorem manual_iteration_writes_floor_witness :
    (loopStep initState 0).ocr1a = PWM_LOW + (0 : Nat) * PWM_RANGE / 255
    ∧ manual_pulse 0 = PWM_LOW
    ∧ manual_pulse 128 = PWM_CENTER
    ∧ manual_pulse 255 = PWM_HIGH :=
  manual_iteration_writes_floor initState 0 ⟨0, by decide⟩ rfl (by decide)

/-- Claim C2: starting from the post-initialization state, after any
interleaving of loop iterations and conversion interrupts, the PWM
compare register lies in [PWM_LOW, PWM_HIGH] and is never 0. -/
theorem ocr1a_always_in_range (evs : List Ev) :
    PWM_LOW ≤ (runEvents initState evs).ocr1a
    ∧ (runEvents initState evs).ocr1a ≤ PWM_HIGH
    ∧ 0 < (runEvents initState evs).ocr1a := by
  have h := inv_run initState evs inv_init
  have h1 : 123 ≤ (runEvents initState evs).ocr1a := h.1
  exact ⟨h.1, h.2.1, by omega⟩

/-- Claim C3: when the switch reads Center, the iteration writes
PWM_CENTER exactly when the previous mode was not Center; with the
previous mode already Center, the compare register is left untouched. -/
theorem center_edge_one_shot (st : ProgState) (pina : Nat)
    (hsw : switchRead pina = SET_CENTER) :
    (st.prev_sw_state ≠ SET_CENTER → (loopStep st pina).ocr1a = PWM_CENTER)
    ∧ (st.prev_sw_state = SET_CENTER → (loopStep st pina).ocr1a = st.ocr1a) :=
  ⟨fun hp => (loopStep_center_edge st pina hsw hp).1,
   fun hp => (loopStep_center_stay st pina hsw hp).1⟩

/-- Witness for C3: a Manual-to-Center edge from the initial state. -/
theorem center_edge_one_shot_witness :
    (loopStep initState 2).ocr1a = PWM_CENTER :=
  (center_edge_one_shot initState 2 (by decide)).1 (by decide)

/-- Claim C4: from any state whose recorded previous mode is Center and
whose compare register holds PWM_CENTER, any number of further
iterations that keep reading Center (with interrupts interleaved
arbitrarily) never alters the compare register. -/
theorem center_idempotent (st : ProgState) (evs : List Ev)
    (hprev : st.prev_sw_state = SET_CENTER) (hocr : st.ocr1a = PWM_CENTER)
    (hevs : ∀ e ∈ evs, centerOnly e = true) :
    (runEvents st evs).ocr1a = PWM_CENTER
    ∧ (runEvents st evs).prev_sw_state = SET_CENTER := by
  induction evs generalizing st with
  | nil => exact ⟨hocr, hprev⟩
  | cons e evs ih =>
      have hrest : ∀ x ∈ evs, centerOnly x = true :=
        fun x hx => hevs x (List.mem_cons_of_mem e hx)
      cases e with
      | adc c => exact ih (isrADC st c) hprev hocr hrest
      | loop pina =>
          have he : decide (switchRead pina = SET_CENTER) = true :=
            hevs (Ev.loop pina) (List.mem_cons_self _ _)
          have hsw : switchRead pina = SET_CENTER := of_decide_eq_true he
          have hs := loopStep_center_stay st pina hsw hprev
          exact ih (loopStep st pina) hs.2 (hs.1.trans hocr) hrest

/-- Witness for C4: three further Center iterations around an interrupt
leave the compare register at PWM_CENTER. -/
theorem center_idempotent_witness :
    (runEvents ⟨0, PWM_CENTER, SET_CENTER⟩ [Ev.loop 2, Ev.adc 100, Ev.loop 3]).ocr1a = PWM_CENTER
    ∧ (runEvents ⟨0, PWM_CENTER, SET_CENTER⟩ [Ev.loop 2, Ev.adc 100, Ev.loop 3]).prev_sw_state = SET_CENTER :=
  center_idempotent ⟨0, PWM_CENTER, SET_CENTER⟩ [Ev.loop 2, Ev.adc 100, Ev.loop 3]
    rfl rfl (by decide)

/-- Claim C5: every iteration that reads Manual recomputes the compare
register from the current shared analog sample, whatever the previous
mode and previous register contents were. -/
theorem manual_unconditional (st : ProgState) (pina : Nat)
    (hsw : switchRead pina = SET_MANUAL) :
    (loopStep st pina).ocr1a = manual_pulse st.analog_readout :=
  (loopStep_manual st pina hsw).1

/-- Witness for C5: the first iteration after a Center-to-Manual
transition already holds the analog-derived value. -/
theorem manual_unconditional_witness :
    (loopStep ⟨7, PWM_CENTER, SET_CENTER⟩ 0).ocr1a = manual_pulse 7 :=
  manual_unconditional ⟨7, PWM_CENTER, SET_CENTER⟩ 0 (by decide)

/-- Claim C6: the switch read maps bit 1 of PINA set to Center and
clear to Manual, and every iteration ends by recording the mode just
read into prev_sw_state. -/
theorem switch_mapping_and_prev (pina : Nat) (st : ProgState) :
    (switchRead pina = SET_CENTER ↔ pina.testBit 1 = true)
    ∧ (switchRead pina = SET_MANUAL ↔ pina.testBit 1 = false)
    ∧ (loopStep st pina).prev_sw_state = switchRead pina := by
  refine ⟨?_, ?_, loopStep_prev st pina⟩
  · rw [switchRead_eq_testBit]
    cases pina.testBit 1 <;> simp [SET_CENTER]
  · rw [switchRead_eq_testBit]
    cases pina.testBit 1 <;> simp [SET_MANUAL]

/-- Claim C7: the startup path writes OCR1A exactly once, with
PWM_CENTER; that write precedes the timer start, which precedes sei,
which precedes the settling delay; no switch read occurs during
startup; and the compare register holds PWM_CENTER at every point of
the startup trace after the write, in particular throughout the delay. -/
theorem startup_centers_before_interrupts :
    ocr1aWrites startupTrace = [PWM_CENTER]
    ∧ startupTrace.findIdx isOCR1AWrite
        < startupTrace.findIdx (fun e => decide (e = Event.wTCCR1B TIM1_CTRLB))
    ∧ startupTrace.findIdx (fun e => decide (e = Event.wTCCR1B TIM1_CTRLB))
        < startupTrace.findIdx (fun e => decide (e = Event.sei))
    ∧ startupTrace.findIdx (fun e => decide (e = Event.sei))
        < startupTrace.findIdx (fun e => decide (e = Event.delay_ms 2000))
    ∧ Event.readPINA ∉ startupTrace
    ∧ (∀ n : Fin startupTrace.length,
        ocr1aAfter (startupTrace.take (4 + n.val)) = some PWM_CENTER) := by decide

/-- Claim C8: the conversion-complete handler performs exactly one
assignment, storing the top 8 of the 10 conversion bits into the shared
analog_readout; the compare register and the recorded previous mode are
untouched by every handler execution. -/
theorem isr_only_writes_analog (st : ProgState) (conversion : Nat) :
    (isrADC st conversion).analog_readout = conversion % 1024 >>> 2
    ∧ (isrADC st conversion).ocr1a = st.ocr1a
    ∧ (isrADC st conversion).prev_sw_state = st.prev_sw_state :=
  ⟨rfl, rfl, rfl⟩

/-- Claim C9: for every byte sample the float result lies in
[PWM_LOW, PWM_HIGH], hence below 256, so the narrowing cast to uint8_t
never wraps and the stored compare value is the truncated float. -/
theorem manual_cast_no_wrap (s : Fin 256) :
    PWM_LOW ≤ (manual_pulse_q s.val).floor
    ∧ (manual_pulse_q s.val).floor ≤ PWM_HIGH
    ∧ (manual_pulse_q s.val).floor < 256
    ∧ manual_pulse s.val = (manual_pulse_q s.val).floor := by
  revert s
  decide

/-- Claim C10: prev_sw_state starts as SET_MANUAL, so a first-iteration
Center reading is a Manual-to-Center edge and rewrites the compare
register to PWM_CENTER on that very iteration. -/
theorem prev_init_manual_center_edge_first (pina : Nat)
    (hsw : switchRead pina = SET_CENTER) :
    initState.prev_sw_state = SET_MANUAL
    ∧ (loopStep initState pina).ocr1a = PWM_CENTER :=
  ⟨rfl, (loopStep_center_edge initState pina hsw (by decide)).1⟩

/-- Witness for C10: PINA with bit 1 set (pulled-up open switch). -/
theorem prev_init_manual_center_edge_first_witness :
    initState.prev_sw_state = SET_MANUAL
    ∧ (loopStep initState 3).ocr1a = PWM_CENTER :=
  prev_init_manual_center_edge_first 3 (by decide)

end ServoTester
